import Mathlib

/-!
Verification of the trapla synchronization scripts
(scripts/sync/put-sync.py and scripts/sync/get-sync.py).

The pure helper functions of the two scripts are translated directly
from the Python source.  The effectful protocol (the two main
procedures) is embedded as functions over an explicit model of the
state of a git repository; the semantics of each git subcommand the
scripts shell out to is modelled explicitly, since git is an external
tool invoked through a command interface and is not itself part of the
repository under verification.  Every run also records the trace of
git actions it issued, so that claims about which operations are or
are not performed can be stated as trace properties.
-/

namespace Trapla

/-- Characters accepted by the character class of the branch-name
regular expression in validate_branch_name (put-sync.py line 107,
get-sync.py line 136): everything except ASCII control characters
0 to 31, DEL (127), space, and the characters tilde, caret, colon,
question mark, asterisk, opening square bracket, and backslash. -/
def allowedChar (c : Char) : Bool :=
  !(c.toNat ≤ 31 || c.toNat == 127 || c == ' ' || c == '~' || c == '^' ||
    c == ':' || c == '?' || c == '*' || c == '[' || c == '\\')

/-- The opening curly brace character, written by code point. -/
def braceChar : Char := Char.ofNat 123

/-- Meaning of the anchored regular expression of validate_branch_name
on a list of characters.  The pattern requires a nonempty string of
allowed characters, the first lookahead forbids a leading slash, and
the second lookahead forbids a match of dot-at-end, slash-dot, double
slash, or at-sign followed by an opening brace anywhere in the name.
Note that the pattern does not forbid two consecutive dots unless they
follow a slash or end the name. -/
def branchRegexProp (cs : List Char) : Prop :=
  cs ≠ [] ∧
  cs.head? ≠ some '/' ∧
  cs.getLast? ≠ some '.' ∧
  ¬ (['/', '.'] <:+: cs) ∧
  ¬ (['/', '/'] <:+: cs) ∧
  ¬ (['@', braceChar] <:+: cs) ∧
  (∀ c ∈ cs, allowedChar c = true)

instance (cs : List Char) : Decidable (branchRegexProp cs) := by
  unfold branchRegexProp; infer_instance

/-- The reserved names rejected by validate_branch_name
(put-sync.py line 109, get-sync.py line 138). -/
def reservedNames : List String :=
  [".", "..", "/", "HEAD", "ORIG_HEAD", "FETCH_HEAD", "MERGE_HEAD",
   "CHERRY_PICK_HEAD"]

/-- validate_branch_name from put-sync.py lines 104-111, identical in
get-sync.py lines 132-140: the regular-expression match plus the
reserved-name list check. -/
def validate_branch_name (branch_name : String) : Bool :=
  decide (branchRegexProp branch_name.data ∧ branch_name ∉ reservedNames)

/-- One attempt of the trailing capturing group of the username
patterns, ([^/]+)/ , at the current position: a nonempty maximal run
of non-slash characters that must be followed by a slash. -/
def captureSeg (cs : List Char) : Option (List Char) :=
  let seg := cs.takeWhile (fun c => c != '/')
  let rest := cs.drop seg.length
  if seg = [] then none
  else if rest.head? = some '/' then some seg else none

/-- Python re.search of a literal pattern followed by the capturing
group ([^/]+)/ : attempt a match at every start position from the
left, as re.search does, and return the first captured segment. -/
def searchCapture (pat : List Char) : List Char → Option (List Char)
  | [] => none
  | c :: rest =>
    if pat.isPrefixOf (c :: rest) then
      match captureSeg ((c :: rest).drop pat.length) with
      | some seg => some seg
      | none => searchCapture pat rest
    else searchCapture pat rest

/-- get_github_username from put-sync.py lines 113-143 (identical in
get-sync.py lines 142-172), applied to the already-read remote URL:
three re.search patterns are tried in order, each a literal host
prefix followed by the capturing group for the username; none stands
for the raised exception when no pattern matches. -/
def get_github_username (remote_url : String) : Option String :=
  match searchCapture "git@github.com:".data remote_url.data with
  | some seg => some (String.mk seg)
  | none =>
    match searchCapture "ssh://git@github.com/".data remote_url.data with
    | some seg => some (String.mk seg)
    | none =>
      match searchCapture "https://github.com/".data remote_url.data with
      | some seg => some (String.mk seg)
      | none => none

/-- get_sync_branch_name from put-sync.py lines 145-153 (identical in
get-sync.py lines 174-182): on any failure of get_github_username
(remote URL unreadable, passed here as none, or no pattern matching)
fall back to the OS account name, then prefix sync-of-. -/
def get_sync_branch_name (remote_url : Option String) (os_user : String) : String :=
  let username :=
    match remote_url with
    | none => os_user
    | some url =>
      match get_github_username url with
      | some u => u
      | none => os_user
  "sync-of-" ++ username

/-- The body of the retry loop shared by push_branch (put-sync.py
lines 62-75), delete_remote_branch (put-sync.py lines 89-102,
get-sync.py lines 112-125) and fetch_updates (get-sync.py lines
80-93).  codes gives the return code of each attempt; -2 is the
run_command code of subprocess.TimeoutExpired.  For each attempt:
return on success; on the timeout code sleep 2 ^ attempt seconds
(inside the loop body, hence also after the final attempt) and
continue; on any other code stop at once.  Returns the final code,
the list of attempt indices executed, and the list of sleep durations
performed, in order. -/
def retryGo (codes : Nat → Int) : Nat → Nat → Int × List Nat × List Nat
  | _, 0 => (0, [], [])
  | attempt, fuel + 1 =>
    let c := codes attempt
    if c = 0 then (c, [attempt], [])
    else if c = -2 then
      let s := 2 ^ attempt
      match fuel with
      | 0 => (c, [attempt], [s])
      | f + 1 =>
        let r := retryGo codes (attempt + 1) (f + 1)
        (r.1, attempt :: r.2.1, s :: r.2.2)
    else (c, [attempt], [])

/-- The retry loop entered at attempt 0 with the source bound
range(3). -/
def retryLoop (codes : Nat → Int) : Int × List Nat × List Nat :=
  retryGo codes 0 3

/-- An environment in which every remote operation succeeds at the
first attempt. -/
def allOk : Nat → Int := fun _ => 0

/-- The working-tree condition observable by the probes of
has_changes, together with the presence of untracked files, which
neither probe reports. -/
structure TreeStatus where
  staged_differs : Bool
  unstaged_differs : Bool
  untracked_present : Bool
deriving DecidableEq, Repr

/-- has_changes from put-sync.py lines 38-48 (identical in get-sync.py
lines 68-78): git diff --cached --quiet exits nonzero exactly when
staged changes exist and git diff --quiet exits nonzero exactly when
tracked files have unstaged changes; untracked files affect neither
command. -/
def has_changes_status (s : TreeStatus) : Bool :=
  s.staged_differs || s.unstaged_differs

/-- The early-exit decision of put-sync.py main lines 183-185: exit 0
with the nothing-to-sync message exactly when has_changes returns
false. -/
def put_nothing_to_sync (s : TreeStatus) : Bool :=
  !(has_changes_status s)

/-- The test b.startswith with the backup namespace prefix, used by
get_previous_backup_branch (get-sync.py line 29), expressed on the
character list of the name. -/
def isBackupName (s : String) : Bool :=
  decide ("backup_".data <+: s.data)

/-- Lexicographic code-point comparison of character lists, the order
the Python sorted builtin uses on strings. -/
def charListLe : List Char → List Char → Bool
  | [], _ => true
  | _ :: _, [] => false
  | a :: s, b :: t =>
    if a.toNat < b.toNat then true
    else if b.toNat < a.toNat then false
    else charListLe s t

/-- The Python string comparison on the character lists of two
strings. -/
def pyStrLe (a b : String) : Bool := charListLe a.data b.data

/-- get_previous_backup_branch from get-sync.py lines 22-35, applied
to the list of local branch names (the parsing of the git branch
porcelain output into that list is elided): filter the backup_
namespace, sort ascending as the Python sorted builtin does, and
return the last element, the lexicographically greatest; none when
there is no backup branch.  The Python stable sort is modelled by
insertion sort over the code-point order, which produces the same
ascending order. -/
def get_previous_backup_branch (branches : List String) : Option String :=
  let backups := branches.filter (fun b => isBackupName b)
  if backups = [] then none
  else (backups.insertionSort (fun a b => pyStrLe a b = true)).getLast?

/-- is_default_branch from get-sync.py lines 241-243. -/
def is_default_branch (branch_name default_branch : String) : Bool :=
  branch_name == default_branch

/-- A commit history of a branch: the list of tree snapshots, newest
first.  A snapshot abstracts the entire committed tree content as one
natural number. -/
abbrev History := List Nat

/-- The state of the local repository: the local branches with their
histories, the checked-out branch, the working-tree content, and
whether an unresolved merge is in progress. -/
structure Repo where
  branches : List (String × History)
  current : String
  worktree : Nat
  conflicted : Bool
deriving DecidableEq, Repr

/-- The remote repository seen through origin: its branches. -/
abbrev Remote := List (String × History)

/-- The git actions the scripts issue, recorded in the run trace. -/
inductive GAct where
  | addAll
  | commit
  | deleteRemote (b : String)
  | createSwitch (b : String)
  | push (b : String)
  | switchTo (b : String)
  | softReset
  | deleteLocal (b : String)
  | fetch
  | checkoutTrack (b : String)
  | merge (b : String)
deriving DecidableEq, Repr

/-- Look a branch up by name. -/
def branchLookup (n : String) : List (String × History) → Option History
  | [] => none
  | (m, h) :: t => if m = n then some h else branchLookup n t

/-- Set or add a branch entry. -/
def setBranch (n : String) (h : History) : List (String × History) → List (String × History)
  | [] => [(n, h)]
  | (m, g) :: t => if m = n then (n, h) :: t else (m, g) :: setBranch n h t

/-- Remove a branch entry. -/
def removeBranch (n : String) (bs : List (String × History)) : List (String × History) :=
  bs.filter (fun p => p.1 ≠ n)

/-- The snapshot at the tip of the checked-out branch. -/
def headContent (r : Repo) : Option Nat :=
  (branchLookup r.current r.branches).bind List.head?

/-- The two diff probes of has_changes on the model state: the tree is
dirty exactly when the working tree differs from the checked-out head
snapshot (staging is folded into the snapshot abstraction). -/
def gitHasChanges (r : Repo) : Prop :=
  headContent r ≠ some r.worktree

instance (r : Repo) : Decidable (gitHasChanges r) := by
  unfold gitHasChanges; infer_instance

/-- git commit: record the working tree as a new snapshot on the
current branch. -/
def gitCommit (r : Repo) : Repo :=
  let h := (branchLookup r.current r.branches).getD []
  { r with branches := setBranch r.current (r.worktree :: h) r.branches }

/-- git switch -c b: fails when b already exists; otherwise creates b
at the current head and switches onto it, leaving the working tree
untouched. -/
def gitSwitchCreate (b : String) (r : Repo) : Option Repo :=
  match branchLookup b r.branches with
  | some _ => none
  | none =>
    let h := (branchLookup r.current r.branches).getD []
    some { r with branches := setBranch b h r.branches, current := b }

/-- git switch b; the ok flag injects an environment-caused refusal.
Switching to an existing branch with a clean tree checks out the
target head snapshot; a dirty tree is carried over. -/
def gitSwitch (ok : Bool) (b : String) (r : Repo) : Option Repo :=
  if !ok then none
  else
    match branchLookup b r.branches with
    | none => none
    | some h =>
      let w := if headContent r = some r.worktree then h.head?.getD r.worktree
               else r.worktree
      some { r with current := b, worktree := w }

/-- git reset --soft HEAD~1: move the current branch to the parent of
its tip, leaving the working tree untouched; fails when the tip has no
parent. -/
def gitReset (r : Repo) : Option Repo :=
  match branchLookup r.current r.branches with
  | some (_ :: p :: t) =>
    some { r with branches := setBranch r.current (p :: t) r.branches }
  | _ => none

/-- git branch -D b: refuses to delete the checked-out branch or a
branch that does not exist. -/
def gitDeleteLocal (b : String) (r : Repo) : Option Repo :=
  if b = r.current then none
  else
    match branchLookup b r.branches with
    | none => none
    | some _ => some { r with branches := removeBranch b r.branches }

/-- git switch -c b origin/b (checkout_branch, get-sync.py lines
100-102): create a local branch at the remote ref and check it out;
fails when the local branch already exists or the remote ref is
missing.  A clean tree checks out the new head snapshot. -/
def gitCheckoutTrack (b : String) (r : Repo) (rem : Remote) : Option Repo :=
  match branchLookup b r.branches with
  | some _ => none
  | none =>
    match branchLookup b rem with
    | none => none
    | some h =>
      let w := if headContent r = some r.worktree then h.head?.getD r.worktree
               else r.worktree
      some { r with branches := setBranch b h r.branches, current := b, worktree := w }

/-- git merge b: fast-forward when the current history is a proper
suffix of the history of b; success without movement when b is already
contained in the current history; otherwise the merge stops with
conflicts left in the tree, reported through the conflicted flag and a
false success component. -/
def gitMerge (b : String) (r : Repo) : Bool × Repo :=
  match branchLookup b r.branches, branchLookup r.current r.branches with
  | some hb, some hc =>
    if hb = hc then (true, r)
    else if hc <:+ hb then
      (true, { r with branches := setBranch r.current hb r.branches,
                      worktree := hb.head?.getD r.worktree })
    else if hb <:+ hc then (true, r)
    else (false, { r with conflicted := true })
  | _, _ => (false, r)

/-- The environment of a Publisher run: the per-attempt return codes
of the two remote operations and whether switching back to the
original branch is possible. -/
structure PutEnv where
  delRemoteCodes : Nat → Int
  pushCodes : Nat → Int
  switchBackOk : Bool

/-- The outcome of a Publisher run: exit code, final local and remote
state, and the trace of git actions issued. -/
structure PutResult where
  exit : Int
  repo : Repo
  remote : Remote
  trace : List GAct
deriving Repr

/-- cleanup_on_failure from put-sync.py lines 155-164: switch back to
the original branch, undo the commit with a soft reset, delete the
local sync branch; each step is best-effort, its own failure ignored. -/
def cleanup_on_failure (env : PutEnv) (current sync_branch : String) (r : Repo) :
    Repo × List GAct :=
  let r1 := (gitSwitch env.switchBackOk current r).getD r
  let r2 := (gitReset r1).getD r1
  let r3 := (gitDeleteLocal sync_branch r2).getD r2
  (r3, [GAct.switchTo current, GAct.softReset, GAct.deleteLocal sync_branch])

/-- main of put-sync.py lines 166-263 on the model: the nothing-to-sync
early exit, branch-name validation, add and commit, best-effort
deletion of the stale remote sync branch (result ignored, line 215),
creation and push of the sync branch with the cleanup_on_failure paths
of lines 219-237, the switch-back failure path of lines 241-246 which
only deletes the local sync branch, and the final soft reset and local
deletion where failures are warnings (lines 248-259).  The
repository-presence and current-branch checks of lines 170-178 are
prior to the model, which starts from a well-formed repository. -/
def put_sync_main (env : PutEnv) (remote_url : Option String) (os_user : String)
    (r0 : Repo) (rem0 : Remote) : PutResult :=
  let current := r0.current
  if ¬ gitHasChanges r0 then
    { exit := 0, repo := r0, remote := rem0, trace := [] }
  else
    let sync_branch := get_sync_branch_name remote_url os_user
    if ¬ validate_branch_name sync_branch then
      { exit := 1, repo := r0, remote := rem0, trace := [] }
    else
      let r2 := gitCommit r0
      let dcode := (retryLoop env.delRemoteCodes).1
      let rem1 := if dcode = 0 then removeBranch sync_branch rem0 else rem0
      let tr1 := [GAct.addAll, GAct.commit, GAct.deleteRemote sync_branch]
      match gitSwitchCreate sync_branch r2 with
      | none =>
        let c := cleanup_on_failure env current sync_branch r2
        { exit := 1, repo := c.1, remote := rem1,
          trace := tr1 ++ [GAct.createSwitch sync_branch] ++ c.2 }
      | some r3 =>
        let pcode := (retryLoop env.pushCodes).1
        if pcode ≠ 0 then
          let c := cleanup_on_failure env current sync_branch r3
          { exit := 1, repo := c.1, remote := rem1,
            trace := tr1 ++ [GAct.createSwitch sync_branch, GAct.push sync_branch] ++ c.2 }
        else
          let rem2 := setBranch sync_branch ((branchLookup sync_branch r3.branches).getD []) rem1
          let tr2 := tr1 ++ [GAct.createSwitch sync_branch, GAct.push sync_branch]
          match gitSwitch env.switchBackOk current r3 with
          | none =>
            let r4 := (gitDeleteLocal sync_branch r3).getD r3
            { exit := 1, repo := r4, remote := rem2,
              trace := tr2 ++ [GAct.switchTo current, GAct.deleteLocal sync_branch] }
          | some r4 =>
            let r5 := (gitReset r4).getD r4
            let r6 := (gitDeleteLocal sync_branch r5).getD r5
            { exit := 0, repo := r6, remote := rem2,
              trace := tr2 ++ [GAct.switchTo current, GAct.softReset,
                               GAct.deleteLocal sync_branch] }

/-- The environment of a Consumer run: per-attempt return codes of the
fetch and of the remote branch deletion, and the timestamp used for
the backup branch name. -/
structure GetEnv where
  fetchCodes : Nat → Int
  delRemoteCodes : Nat → Int
  backup_ts : String

/-- The outcome of a Consumer run. -/
structure GetResult where
  exit : Int
  repo : Repo
  remote : Remote
  trace : List GAct
  backup_branch : Option String
deriving Repr

/-- The backup section of get-sync.py main lines 306-334, entered when
the working tree is dirty: best-effort deletion of the previous backup
branch, creation of backup_<timestamp> with git switch -c, which moves
onto the new branch carrying the dirty tree, then switch back to the
original branch.  The two fatal failures, creating the backup branch
(lines 318-321) and switching back (lines 329-332), yield none, on
which main exits 1. -/
def backup_flow (ts current : String) (r : Repo) : Option (Repo × Option String × List GAct) :=
  let names := r.branches.map Prod.fst
  let prev := get_previous_backup_branch names
  let r1 := match prev with
    | some p => (gitDeleteLocal p r).getD r
    | none => r
  let tr0 := match prev with
    | some p => [GAct.deleteLocal p]
    | none => []
  let bname := "backup_" ++ ts
  match gitSwitchCreate bname r1 with
  | none => none
  | some r2 =>
    match gitSwitch true current r2 with
    | none => none
    | some r3 =>
      some (r3, some bname, tr0 ++ [GAct.createSwitch bname, GAct.switchTo current])

/-- main of get-sync.py from line 303 on, once the transport branch to
use has been resolved: the backup section for a dirty tree, checkout
of the transport branch off the remote (line 338), switch back (line
346), merge (line 353) whose failure is fatal with no further action
(lines 354-358), soft reset whose failure is fatal (lines 362-366),
best-effort local branch deletion (lines 370-373), and the conditional
remote deletion of lines 375-391, attempted only for the default
branch and never affecting the exit code. -/
def get_sync_after_resolve (env : GetEnv) (current sync_branch default_branch : String)
    (r0 : Repo) (rem0 : Remote) : GetResult :=
  let bres := if gitHasChanges r0 then backup_flow env.backup_ts current r0
              else some (r0, none, [])
  match bres with
  | none =>
    { exit := 1, repo := r0, remote := rem0, trace := [], backup_branch := none }
  | some (r1, bb, trb) =>
    match gitCheckoutTrack sync_branch r1 rem0 with
    | none =>
      { exit := 1, repo := r1, remote := rem0,
        trace := trb ++ [GAct.checkoutTrack sync_branch], backup_branch := bb }
    | some r2 =>
      match gitSwitch true current r2 with
      | none =>
        { exit := 1, repo := r2, remote := rem0,
          trace := trb ++ [GAct.checkoutTrack sync_branch, GAct.switchTo current],
          backup_branch := bb }
      | some r3 =>
        let m := gitMerge sync_branch r3
        let trm := trb ++ [GAct.checkoutTrack sync_branch, GAct.switchTo current,
                           GAct.merge sync_branch]
        if ¬ m.1 then
          { exit := 1, repo := m.2, remote := rem0, trace := trm, backup_branch := bb }
        else
          match gitReset m.2 with
          | none =>
            { exit := 1, repo := m.2, remote := rem0,
              trace := trm ++ [GAct.softReset], backup_branch := bb }
          | some r4 =>
            let r5 := (gitDeleteLocal sync_branch r4).getD r4
            let trd := trm ++ [GAct.softReset, GAct.deleteLocal sync_branch]
            if is_default_branch sync_branch default_branch then
              let dcode := (retryLoop env.delRemoteCodes).1
              let rem1 := if dcode = 0 then removeBranch sync_branch rem0 else rem0
              { exit := 0, repo := r5, remote := rem1,
                trace := trd ++ [GAct.deleteRemote sync_branch], backup_branch := bb }
            else
              { exit := 0, repo := r5, remote := rem0, trace := trd, backup_branch := bb }

/-- main of get-sync.py lines 245-301 on the model: validation of the
default branch name, fetch with retries (fatal on failure, lines
271-278), then resolution of the transport branch: the default when it
exists remotely (lines 282-285), otherwise the selection standing for
the interactive prompt of select_sync_branch, where none is the cancel
choice exiting 0 (lines 291-293) and a selected branch must exist
remotely (lines 296-299); finally the consume sequence.  The
enumeration and ordering of the interactive menu is elided into the
selection parameter. -/
def get_sync_main (env : GetEnv) (selection : Option String) (remote_url : Option String)
    (os_user : String) (r0 : Repo) (rem0 : Remote) : GetResult :=
  let current := r0.current
  let default_branch := get_sync_branch_name remote_url os_user
  if ¬ validate_branch_name default_branch then
    { exit := 1, repo := r0, remote := rem0, trace := [], backup_branch := none }
  else
    let fcode := (retryLoop env.fetchCodes).1
    if fcode ≠ 0 then
      { exit := 1, repo := r0, remote := rem0, trace := [GAct.fetch], backup_branch := none }
    else
      if (branchLookup default_branch rem0).isSome then
        let res := get_sync_after_resolve env current default_branch default_branch r0 rem0
        { res with trace := GAct.fetch :: res.trace }
      else
        match selection with
        | none =>
          { exit := 0, repo := r0, remote := rem0, trace := [GAct.fetch],
            backup_branch := none }
        | some sel =>
          if (branchLookup sel rem0).isSome then
            let res := get_sync_after_resolve env current sel default_branch r0 rem0
            { res with trace := GAct.fetch :: res.trace }
          else
            { exit := 1, repo := r0, remote := rem0, trace := [GAct.fetch],
              backup_branch := none }

/-! ### Helper lemmas about the branch map -/

theorem branchLookup_setBranch_self (n : String) (h : History) (bs : List (String × History)) :
    branchLookup n (setBranch n h bs) = some h := by
  induction bs with
  | nil => simp [branchLookup, setBranch]
  | cons p t ih =>
    obtain ⟨m, g⟩ := p
    by_cases hm : m = n
    · simp [branchLookup, setBranch, hm]
    · simp [branchLookup, setBranch, hm, ih]

theorem branchLookup_setBranch_ne (m n : String) (h : History) (bs : List (String × History))
    (hne : m ≠ n) : branchLookup m (setBranch n h bs) = branchLookup m bs := by
  induction bs with
  | nil => simp [branchLookup, setBranch, Ne.symm hne]
  | cons p t ih =>
    obtain ⟨k, g⟩ := p
    by_cases hk : k = n
    · subst hk
      simp [branchLookup, setBranch, Ne.symm hne]
    · by_cases hk2 : k = m
      · subst hk2
        simp [branchLookup, setBranch, hne]
      · simp [branchLookup, setBranch, hk, hk2, ih]

theorem branchLookup_of_not_mem (n : String) (bs : List (String × History))
    (h : n ∉ bs.map Prod.fst) : branchLookup n bs = none := by
  induction bs with
  | nil => rfl
  | cons p t ih =>
    obtain ⟨m, g⟩ := p
    simp only [List.map_cons, List.mem_cons] at h
    push_neg at h
    simp [branchLookup, Ne.symm h.1, ih h.2]

theorem mem_keys_of_branchLookup_some (n : String) (bs : List (String × History)) (h : History)
    (hl : branchLookup n bs = some h) : n ∈ bs.map Prod.fst := by
  induction bs with
  | nil => simp [branchLookup] at hl
  | cons p t ih =>
    obtain ⟨m, g⟩ := p
    by_cases hm : m = n
    · simp [hm]
    · simp only [branchLookup, if_neg hm] at hl
      simp [ih hl]

theorem setBranch_append_of_not_mem (n : String) (h : History) (bs : List (String × History))
    (hn : n ∉ bs.map Prod.fst) : setBranch n h bs = bs ++ [(n, h)] := by
  induction bs with
  | nil => rfl
  | cons p t ih =>
    obtain ⟨m, g⟩ := p
    simp only [List.map_cons, List.mem_cons] at hn
    push_neg at hn
    simp [setBranch, Ne.symm hn.1, ih hn.2]

theorem removeBranch_of_not_mem (n : String) (bs : List (String × History))
    (hn : n ∉ bs.map Prod.fst) : removeBranch n bs = bs := by
  induction bs with
  | nil => rfl
  | cons p t ih =>
    obtain ⟨m, g⟩ := p
    simp only [List.map_cons, List.mem_cons] at hn
    push_neg at hn
    have hrest := ih hn.2
    simp only [removeBranch] at hrest ⊢
    rw [List.filter_cons, if_pos (by simp [Ne.symm hn.1]), hrest]

theorem removeBranch_setBranch (n : String) (h : History) (bs : List (String × History))
    (hn : n ∉ bs.map Prod.fst) : removeBranch n (setBranch n h bs) = bs := by
  rw [setBranch_append_of_not_mem n h bs hn]
  have h1 : removeBranch n (bs ++ [(n, h)]) = removeBranch n bs ++ removeBranch n [(n, h)] := by
    simp only [removeBranch, List.filter_append]
  rw [h1, removeBranch_of_not_mem n bs hn]
  simp [removeBranch]

/-! ### Helper lemmas about the username search -/

theorem takeWhile_no_slash :
    ∀ (owner rest : List Char), (∀ c ∈ owner, c ≠ '/') →
      List.takeWhile (fun c => c != '/') (owner ++ '/' :: rest) = owner := by
  intro owner
  induction owner with
  | nil =>
    intro rest _
    simp [List.takeWhile_cons]
  | cons a t ih =>
    intro rest h
    have ha : a ≠ '/' := h a (List.mem_cons_self a t)
    simp only [List.cons_append, List.takeWhile_cons]
    rw [if_pos (by simp [ha]), ih rest (fun c hc => h c (List.mem_cons_of_mem a hc))]

theorem captureSeg_owner (owner rest : List Char) (hne : owner ≠ [])
    (hsl : ∀ c ∈ owner, c ≠ '/') :
    captureSeg (owner ++ '/' :: rest) = some owner := by
  simp only [captureSeg]
  rw [takeWhile_no_slash owner rest hsl, List.drop_left' rfl]
  simp [hne]

theorem searchCapture_at_start (pat rest seg : List Char)
    (hpat : pat ≠ []) (hcap : captureSeg rest = some seg) :
    searchCapture pat (pat ++ rest) = some seg := by
  match pat, hpat with
  | p :: pt, _ =>
    show searchCapture (p :: pt) (p :: (pt ++ rest)) = some seg
    rw [searchCapture]
    have hpre : (p :: pt).isPrefixOf (p :: (pt ++ rest)) = true := by
      rw [List.isPrefixOf_iff_prefix]
      exact ⟨rest, by simp⟩
    rw [if_pos hpre]
    have hdrop : (p :: (pt ++ rest)).drop (p :: pt).length = rest := by
      rw [show (p :: (pt ++ rest)) = (p :: pt) ++ rest by simp]
      exact List.drop_left _ _
    rw [hdrop, hcap]

theorem searchCapture_none (pat : List Char) :
    ∀ (cs : List Char), ¬ (pat <:+: cs) → searchCapture pat cs = none := by
  intro cs
  induction cs with
  | nil => intro _; rfl
  | cons c t ih =>
    intro h
    have hpre : pat.isPrefixOf (c :: t) = false := by
      rw [Bool.eq_false_iff]
      intro hp
      exact h (List.IsPrefix.isInfix (List.isPrefixOf_iff_prefix.mp hp))
    have hrest : searchCapture pat t = none :=
      ih (fun hinf => h (List.infix_cons hinf))
    rw [searchCapture, if_neg (by simp [hpre]), hrest]

theorem string_mk_data (s : String) : String.mk s.data = s := by
  cases s
  rfl

/-! ### C10 -/

/-- C10: validate_branch_name returns false for the empty string, so
an empty derived or user-chosen branch name is never accepted by the
validation step of either script. -/
theorem validate_empty_rejected : validate_branch_name "" = false := by decide

/-! ### C7 -/

/-- C7: the claim, the spec, and the comment above the source regular
expression (put-sync.py line 106) all state that names containing two
consecutive dots are rejected, and git itself rejects such refnames,
but the regular expression only forbids a dot at the end or after a
slash: the name a..b, which contains two consecutive dots, is accepted
by validate_branch_name. -/
theorem validate_accepts_double_dot : validate_branch_name "a..b" = true := by decide

/-! ### C6 -/

/-- C6 (counterexample): with remote-operation attempts that always
time out, the loop runs 3 attempts but the sleeps performed are 1, 2
and 4 seconds — the first delay is 1 second (2 to the power 0), not 2,
and the 4-second sleep happens after the final attempt, not between
attempts, contradicting the claimed delays of 2 then 4 seconds with no
delay after the last attempt. -/
theorem retry_delays_counterexample :
    retryLoop (fun _ => -2) = (-2, [0, 1, 2], [1, 2, 4])
    ∧ (retryLoop (fun _ => -2)).2.2 ≠ [2, 4] := by
  constructor
  · rfl
  · decide

/-- C6 (amended): when every attempt of a retried remote operation
returns the timeout code -2, the operation is attempted exactly 3
times (attempt indices 0, 1, 2), the sleeps performed are 1 then 2
seconds between consecutive attempts plus a final 4-second sleep after
the last attempt, and the timeout code -2 is returned to the caller,
distinct from any other failure code. -/
theorem retry_exhausted_timeout (codes : Nat → Int)
    (h : ∀ i, i < 3 → codes i = -2) :
    retryLoop codes = (-2, [0, 1, 2], [1, 2, 4]) := by
  have h0 := h 0 (by norm_num)
  have h1 := h 1 (by norm_num)
  have h2 := h 2 (by norm_num)
  simp [retryLoop, retryGo, h0, h1, h2]

/-- C6 witness: the amended theorem applied to the always-timing-out
environment. -/
theorem retry_exhausted_timeout_witness :
    retryLoop (fun _ => (-2 : Int)) = (-2, [0, 1, 2], [1, 2, 4]) :=
  retry_exhausted_timeout (fun _ => -2) (fun _ _ => rfl)

/-! ### C9 -/

/-- C9 (counterexample): a working tree whose only change is an
untracked file is reported clean by has_changes, because neither git
diff probe sees untracked files, so the Publisher takes the
nothing-to-sync exit instead of proceeding to stage it as the claim
requires. -/
theorem untracked_only_exits_early :
    has_changes_status ⟨false, false, true⟩ = false
    ∧ put_nothing_to_sync ⟨false, false, true⟩ = true := by decide

/-- C9 (amended): the Publisher exits early with the successful
nothing-to-sync outcome exactly when there are no staged changes and
no unstaged changes to tracked files; the presence of untracked files
does not enter the decision, and when nothing is detected the run
performs no staging, commit, branch creation or push and exits 0 with
the state untouched. -/
theorem nothing_to_sync_iff (s : TreeStatus) :
    (put_nothing_to_sync s = true ↔ s.staged_differs = false ∧ s.unstaged_differs = false)
    ∧ ∀ (env : PutEnv) (url : Option String) (os : String) (r : Repo) (rem : Remote),
        ¬ gitHasChanges r →
        put_sync_main env url os r rem = { exit := 0, repo := r, remote := rem, trace := [] } := by
  constructor
  · obtain ⟨a, b, c⟩ := s
    cases a <;> cases b <;> simp [put_nothing_to_sync, has_changes_status]
  · intro env url os r rem h
    simp [put_sync_main, h]

/-- C9 witness: the amended theorem applied to a clean repository. -/
theorem nothing_to_sync_iff_witness :
    put_sync_main ⟨allOk, allOk, true⟩ none "u" ⟨[("main", [0])], "main", 0, false⟩ []
      = { exit := 0, repo := ⟨[("main", [0])], "main", 0, false⟩, remote := [], trace := [] } :=
  (nothing_to_sync_iff ⟨false, false, false⟩).2 ⟨allOk, allOk, true⟩ none "u"
    ⟨[("main", [0])], "main", 0, false⟩ [] (by decide)

/-! ### C8 -/

/-- C8 (counterexample): the source patterns fix the host to
github.com, so a URL of the first accepted shape whose host is another
service is not mapped to the path segment after the host; extraction
fails and the identity falls back to the OS account name instead of
owner. -/
theorem username_other_host_counterexample :
    get_github_username "git@gitlab.com:owner/repo.git" = none
    ∧ get_sync_branch_name (some "git@gitlab.com:owner/repo.git") "me" = "sync-of-me"
    ∧ get_sync_branch_name (some "git@gitlab.com:owner/repo.git") "me" ≠ "sync-of-owner" := by
  refine ⟨by decide, by decide, by decide⟩

/-- C8 (amended): identity resolution maps a remote URL of each of the
three accepted shapes, whose host is exactly github.com as in the
source patterns, to the path segment immediately following the host;
a URL matching none of the shapes, or an unreadable remote URL (none),
falls back non-fatally to the OS account name; and the transport
branch name is sync-of- followed by the resolved identity. -/
theorem identity_resolution (owner repo os_user : String)
    (hne : owner.data ≠ [])
    (hsl : ∀ c ∈ owner.data, c ≠ '/') :
    get_github_username ("git@github.com:" ++ owner ++ "/" ++ repo) = some owner
    ∧ get_github_username "ssh://git@github.com/owner/repo.git" = some "owner"
    ∧ get_github_username "https://github.com/owner/repo.git" = some "owner"
    ∧ get_github_username "git@bitbucket.org:owner/repo.git" = none
    ∧ get_sync_branch_name (some "git@bitbucket.org:owner/repo.git") os_user
        = "sync-of-" ++ os_user
    ∧ get_sync_branch_name none os_user = "sync-of-" ++ os_user
    ∧ get_sync_branch_name (some ("git@github.com:" ++ owner ++ "/" ++ repo)) os_user
        = "sync-of-" ++ owner := by
  have hdata : ("git@github.com:" ++ owner ++ "/" ++ repo).data
      = "git@github.com:".data ++ (owner.data ++ '/' :: repo.data) := by
    simp [String.data_append, List.append_assoc]
  have h1 : get_github_username ("git@github.com:" ++ owner ++ "/" ++ repo) = some owner := by
    have hsearch := searchCapture_at_start "git@github.com:".data
      (owner.data ++ '/' :: repo.data) owner.data (by decide)
      (captureSeg_owner owner.data repo.data hne hsl)
    simp only [get_github_username, hdata, hsearch, string_mk_data]
  have h4 : get_github_username "git@bitbucket.org:owner/repo.git" = none := by decide
  refine ⟨h1, by decide, by decide, h4, ?_, rfl, ?_⟩
  · simp [get_sync_branch_name, h4]
  · simp [get_sync_branch_name, h1]

/-- C8 witness: the amended theorem at a concrete owner and
repository. -/
theorem identity_resolution_witness :
    get_github_username ("git@github.com:" ++ "alice" ++ "/" ++ "repo.git") = some "alice"
    ∧ get_github_username "ssh://git@github.com/owner/repo.git" = some "owner"
    ∧ get_github_username "https://github.com/owner/repo.git" = some "owner"
    ∧ get_github_username "git@bitbucket.org:owner/repo.git" = none
    ∧ get_sync_branch_name (some "git@bitbucket.org:owner/repo.git") "bob" = "sync-of-" ++ "bob"
    ∧ get_sync_branch_name none "bob" = "sync-of-" ++ "bob"
    ∧ get_sync_branch_name (some ("git@github.com:" ++ "alice" ++ "/" ++ "repo.git")) "bob"
        = "sync-of-" ++ "alice" :=
  identity_resolution "alice" "repo.git" "bob" (by decide) (by decide)

/-! ### C5 -/

/-- A name in the backup namespace always satisfies the backup-prefix
test. -/
theorem isBackupName_prefix (ts : String) : isBackupName ("backup_" ++ ts) = true := by
  unfold isBackupName
  rw [String.data_append]
  exact decide_eq_true (List.prefix_append _ _)

/-- C5: backup rotation.  In a repository with no backup branches, a
first backup-triggering consume finds no previous backup branch and
creates backup_ts1, leaving exactly that one backup branch; the second
backup-triggering consume first deletes backup_ts1 — the
lexicographically greatest (here only) existing backup branch, as
get_previous_backup_branch computes — and then creates backup_ts2, so
exactly one backup branch remains, carrying the second timestamp.  In
the trace of the second flow the deletion precedes the creation.  The
closing conjunct checks the lexicographic choice on a repository with
two backup branches. -/
theorem backup_rotation (bs : List (String × History)) (c : String) (w : Nat)
    (hcur : History) (ts1 ts2 : String)
    (hnob : (bs.map Prod.fst).filter (fun n => isBackupName n) = [])
    (hc : branchLookup c bs = some hcur) :
    backup_flow ts1 c ⟨bs, c, w, false⟩
      = some (⟨setBranch ("backup_" ++ ts1) hcur bs, c, w, false⟩, some ("backup_" ++ ts1),
              [GAct.createSwitch ("backup_" ++ ts1), GAct.switchTo c])
    ∧ ((setBranch ("backup_" ++ ts1) hcur bs).map Prod.fst).filter
        (fun n => isBackupName n) = ["backup_" ++ ts1]
    ∧ backup_flow ts2 c ⟨setBranch ("backup_" ++ ts1) hcur bs, c, w, false⟩
      = some (⟨setBranch ("backup_" ++ ts2) hcur bs, c, w, false⟩, some ("backup_" ++ ts2),
              [GAct.deleteLocal ("backup_" ++ ts1), GAct.createSwitch ("backup_" ++ ts2),
               GAct.switchTo c])
    ∧ ((setBranch ("backup_" ++ ts2) hcur bs).map Prod.fst).filter
        (fun n => isBackupName n) = ["backup_" ++ ts2]
    ∧ get_previous_backup_branch
        ["main", "backup_20240101_000000", "backup_20250607_120000"]
        = some "backup_20250607_120000" := by
  have hall : ∀ n ∈ bs.map Prod.fst, isBackupName n = false := by
    intro n hn
    have := List.filter_eq_nil_iff.mp hnob n hn
    simpa using this
  have hb1 : isBackupName ("backup_" ++ ts1) = true := isBackupName_prefix ts1
  have hb2 : isBackupName ("backup_" ++ ts2) = true := isBackupName_prefix ts2
  have hnot1 : ("backup_" ++ ts1) ∉ bs.map Prod.fst := fun hmem => by
    rw [hall _ hmem] at hb1
    exact Bool.false_ne_true hb1
  have hnot2 : ("backup_" ++ ts2) ∉ bs.map Prod.fst := fun hmem => by
    rw [hall _ hmem] at hb2
    exact Bool.false_ne_true hb2
  have hcmem : c ∈ bs.map Prod.fst := mem_keys_of_branchLookup_some c bs hcur hc
  have hcne1 : ("backup_" ++ ts1) ≠ c := fun h => hnot1 (h ▸ hcmem)
  have hcne2 : ("backup_" ++ ts2) ≠ c := fun h => hnot2 (h ▸ hcmem)
  have hprev0 : get_previous_backup_branch (bs.map Prod.fst) = none := by
    simp [get_previous_backup_branch, hnob]
  -- the first flow
  have hlook1 : branchLookup ("backup_" ++ ts1) bs = none :=
    branchLookup_of_not_mem _ bs hnot1
  have hflow1 : backup_flow ts1 c ⟨bs, c, w, false⟩
      = some (⟨setBranch ("backup_" ++ ts1) hcur bs, c, w, false⟩, some ("backup_" ++ ts1),
              [GAct.createSwitch ("backup_" ++ ts1), GAct.switchTo c]) := by
    simp only [backup_flow, hprev0]
    simp only [gitSwitchCreate, hlook1, hc, Option.getD_some]
    simp only [gitSwitch, Bool.not_true, Bool.false_eq_true, if_false,
      branchLookup_setBranch_ne c ("backup_" ++ ts1) hcur bs (Ne.symm hcne1), hc]
    simp only [headContent, branchLookup_setBranch_self, Option.bind_some]
    by_cases hw : hcur.head? = some w
    · simp [hw]
    · simp [hw]
  have hkeys1 : (setBranch ("backup_" ++ ts1) hcur bs).map Prod.fst
      = bs.map Prod.fst ++ ["backup_" ++ ts1] := by
    rw [setBranch_append_of_not_mem _ _ _ hnot1, List.map_append]
    rfl
  have hfilter1 : ((setBranch ("backup_" ++ ts1) hcur bs).map Prod.fst).filter
      (fun n => isBackupName n) = ["backup_" ++ ts1] := by
    rw [hkeys1, List.filter_append, hnob]
    simp [hb1]
  refine ⟨hflow1, hfilter1, ?_⟩
  -- the second flow
  have hprev1 : get_previous_backup_branch ((setBranch ("backup_" ++ ts1) hcur bs).map Prod.fst)
      = some ("backup_" ++ ts1) := by
    simp [get_previous_backup_branch, hfilter1, List.insertionSort]
  have hdel : gitDeleteLocal ("backup_" ++ ts1)
      ⟨setBranch ("backup_" ++ ts1) hcur bs, c, w, false⟩ = some ⟨bs, c, w, false⟩ := by
    simp only [gitDeleteLocal, if_neg hcne1, branchLookup_setBranch_self]
    rw [removeBranch_setBranch _ _ _ hnot1]
  have hlook2 : branchLookup ("backup_" ++ ts2) bs = none :=
    branchLookup_of_not_mem _ bs hnot2
  have hflow2 : backup_flow ts2 c ⟨setBranch ("backup_" ++ ts1) hcur bs, c, w, false⟩
      = some (⟨setBranch ("backup_" ++ ts2) hcur bs, c, w, false⟩, some ("backup_" ++ ts2),
              [GAct.deleteLocal ("backup_" ++ ts1), GAct.createSwitch ("backup_" ++ ts2),
               GAct.switchTo c]) := by
    simp only [backup_flow, hprev1, hdel, Option.getD_some]
    simp only [gitSwitchCreate, hlook2, hc, Option.getD_some]
    simp only [gitSwitch, Bool.not_true, Bool.false_eq_true, if_false,
      branchLookup_setBranch_ne c ("backup_" ++ ts2) hcur bs (Ne.symm hcne2), hc]
    simp only [headContent, branchLookup_setBranch_self, Option.bind_some]
    by_cases hw : hcur.head? = some w
    · simp [hw]
    · simp [hw]
  have hkeys2 : (setBranch ("backup_" ++ ts2) hcur bs).map Prod.fst
      = bs.map Prod.fst ++ ["backup_" ++ ts2] := by
    rw [setBranch_append_of_not_mem _ _ _ hnot2, List.map_append]
    rfl
  have hfilter2 : ((setBranch ("backup_" ++ ts2) hcur bs).map Prod.fst).filter
      (fun n => isBackupName n) = ["backup_" ++ ts2] := by
    rw [hkeys2, List.filter_append, hnob]
    simp [hb2]
  exact ⟨hflow2, hfilter2, by decide⟩

/-- C5 witness: the rotation theorem on a one-branch repository. -/
theorem backup_rotation_witness :
    backup_flow "a" "main" ⟨[("main", [5])], "main", 6, false⟩
      = some (⟨setBranch ("backup_" ++ "a") [5] [("main", [5])], "main", 6, false⟩,
              some ("backup_" ++ "a"),
              [GAct.createSwitch ("backup_" ++ "a"), GAct.switchTo "main"])
    ∧ ((setBranch ("backup_" ++ "a") [5] [("main", [5])]).map Prod.fst).filter
        (fun n => isBackupName n) = ["backup_" ++ "a"]
    ∧ backup_flow "b" "main" ⟨setBranch ("backup_" ++ "a") [5] [("main", [5])], "main", 6, false⟩
      = some (⟨setBranch ("backup_" ++ "b") [5] [("main", [5])], "main", 6, false⟩,
              some ("backup_" ++ "b"),
              [GAct.deleteLocal ("backup_" ++ "a"), GAct.createSwitch ("backup_" ++ "b"),
               GAct.switchTo "main"])
    ∧ ((setBranch ("backup_" ++ "b") [5] [("main", [5])]).map Prod.fst).filter
        (fun n => isBackupName n) = ["backup_" ++ "b"]
    ∧ get_previous_backup_branch
        ["main", "backup_20240101_000000", "backup_20250607_120000"]
        = some "backup_20250607_120000" :=
  backup_rotation [("main", [5])] "main" 6 [5] "a" "b" (by decide) (by decide)

/-! ### C3 -/

/-- C3: when the merge of the chosen transport branch into the
original branch fails with a conflict, the Consumer exits 1 having
performed no soft reset, no local transport branch deletion and no
remote transport branch deletion: the local transport branch is still
present, the remote is untouched, and the unresolved merge state is
left in place (the conflicted flag is set). -/
theorem merge_conflict_aborts
    (env : GetEnv) (c s d0 : String) (hc hs : History) (w : Nat) (rem0 : Remote)
    (hcs : s ≠ c)
    (hclean : hc.head? = some w)
    (hrem : branchLookup s rem0 = some hs)
    (hsne : hs ≠ [])
    (hns1 : ¬ (hc <:+ hs))
    (hns2 : ¬ (hs <:+ hc)) :
    (get_sync_after_resolve env c s d0 ⟨[(c, hc)], c, w, false⟩ rem0).exit = 1
    ∧ (get_sync_after_resolve env c s d0 ⟨[(c, hc)], c, w, false⟩ rem0).repo.conflicted = true
    ∧ branchLookup s
        (get_sync_after_resolve env c s d0 ⟨[(c, hc)], c, w, false⟩ rem0).repo.branches
        = some hs
    ∧ (get_sync_after_resolve env c s d0 ⟨[(c, hc)], c, w, false⟩ rem0).remote = rem0
    ∧ GAct.softReset ∉ (get_sync_after_resolve env c s d0 ⟨[(c, hc)], c, w, false⟩ rem0).trace
    ∧ GAct.deleteLocal s
        ∉ (get_sync_after_resolve env c s d0 ⟨[(c, hc)], c, w, false⟩ rem0).trace
    ∧ GAct.deleteRemote s
        ∉ (get_sync_after_resolve env c s d0 ⟨[(c, hc)], c, w, false⟩ rem0).trace := by
  obtain ⟨h0, hs0, rfl⟩ := List.exists_cons_of_ne_nil hsne
  have hcsymm : c ≠ s := Ne.symm hcs
  have hdirty : ¬ gitHasChanges ⟨[(c, hc)], c, w, false⟩ := by
    simp [gitHasChanges, headContent, branchLookup, hclean]
  have hct : gitCheckoutTrack s ⟨[(c, hc)], c, w, false⟩ rem0
      = some ⟨[(c, hc), (s, h0 :: hs0)], s, h0, false⟩ := by
    simp [gitCheckoutTrack, branchLookup, setBranch, headContent, hrem, hclean, hcsymm]
  have hsw : gitSwitch true c ⟨[(c, hc), (s, h0 :: hs0)], s, h0, false⟩
      = some ⟨[(c, hc), (s, h0 :: hs0)], c, w, false⟩ := by
    simp only [gitSwitch, Bool.not_true, Bool.false_eq_true, if_false]
    simp [branchLookup, headContent, hcsymm, hclean]
  have hbne : (h0 :: hs0) ≠ hc := by
    intro h
    exact hns2 (h ▸ List.suffix_refl (h0 :: hs0))
  have hmg : gitMerge s ⟨[(c, hc), (s, h0 :: hs0)], c, w, false⟩
      = (false, ⟨[(c, hc), (s, h0 :: hs0)], c, w, true⟩) := by
    simp [gitMerge, branchLookup, hcsymm, hbne, hns1, hns2]
  have hcomp : get_sync_after_resolve env c s d0 ⟨[(c, hc)], c, w, false⟩ rem0
      = ⟨1, ⟨[(c, hc), (s, h0 :: hs0)], c, w, true⟩, rem0,
          [GAct.checkoutTrack s, GAct.switchTo c, GAct.merge s], none⟩ := by
    simp [get_sync_after_resolve, if_neg hdirty, hct, hsw, hmg]
  rw [hcomp]
  refine ⟨rfl, rfl, ?_, rfl, ?_, ?_, ?_⟩
  · simp [branchLookup, hcsymm]
  · simp
  · simp
  · simp

/-- C3 witness: the theorem on a concrete conflicting pair of
histories. -/
theorem merge_conflict_aborts_witness :
    (get_sync_after_resolve ⟨allOk, allOk, "t"⟩ "main" "sync-of-a" "sync-of-a"
        ⟨[("main", [3])], "main", 3, false⟩ [("sync-of-a", [7])]).exit = 1
    ∧ (get_sync_after_resolve ⟨allOk, allOk, "t"⟩ "main" "sync-of-a" "sync-of-a"
        ⟨[("main", [3])], "main", 3, false⟩ [("sync-of-a", [7])]).repo.conflicted = true
    ∧ branchLookup "sync-of-a"
        (get_sync_after_resolve ⟨allOk, allOk, "t"⟩ "main" "sync-of-a" "sync-of-a"
          ⟨[("main", [3])], "main", 3, false⟩ [("sync-of-a", [7])]).repo.branches = some [7]
    ∧ (get_sync_after_resolve ⟨allOk, allOk, "t"⟩ "main" "sync-of-a" "sync-of-a"
        ⟨[("main", [3])], "main", 3, false⟩ [("sync-of-a", [7])]).remote = [("sync-of-a", [7])]
    ∧ GAct.softReset ∉ (get_sync_after_resolve ⟨allOk, allOk, "t"⟩ "main" "sync-of-a"
        "sync-of-a" ⟨[("main", [3])], "main", 3, false⟩ [("sync-of-a", [7])]).trace
    ∧ GAct.deleteLocal "sync-of-a" ∉ (get_sync_after_resolve ⟨allOk, allOk, "t"⟩ "main"
        "sync-of-a" "sync-of-a" ⟨[("main", [3])], "main", 3, false⟩ [("sync-of-a", [7])]).trace
    ∧ GAct.deleteRemote "sync-of-a" ∉ (get_sync_after_resolve ⟨allOk, allOk, "t"⟩ "main"
        "sync-of-a" "sync-of-a" ⟨[("main", [3])], "main", 3, false⟩
        [("sync-of-a", [7])]).trace :=
  merge_conflict_aborts ⟨allOk, allOk, "t"⟩ "main" "sync-of-a" "sync-of-a" [3] [7] 3
    [("sync-of-a", [7])] (by decide) (by decide) (by decide) (by decide)
    (by decide) (by decide)

/-! ### C2 -/

/-- C2 (counterexample): when the Publisher fails at step 5 to switch
back to the original branch, it does not run the three-action
compensating cleanup: it only attempts deletion of the local transport
branch (which itself fails, as that branch is still checked out), no
soft reset is performed, and the transport commit stays in the
original branch history, so the claimed cleanup does not happen for
this step-5 failure. -/
theorem put_switch_back_failure_no_cleanup :
    (put_sync_main ⟨allOk, allOk, false⟩ none "alice"
        ⟨[("main", [10, 5])], "main", 11, false⟩ []).exit = 1
    ∧ GAct.softReset ∉ (put_sync_main ⟨allOk, allOk, false⟩ none "alice"
        ⟨[("main", [10, 5])], "main", 11, false⟩ []).trace
    ∧ branchLookup "main" (put_sync_main ⟨allOk, allOk, false⟩ none "alice"
        ⟨[("main", [10, 5])], "main", 11, false⟩ []).repo.branches = some [11, 10, 5] := by
  refine ⟨by decide, by decide, by decide⟩

/-- C2 (amended): a failure of the Publisher to create the transport
branch (step 3) or to push it (step 4) triggers the compensating
cleanup_on_failure before exit 1, whose trace is exactly the three
actions switch back, soft reset, delete local transport branch, in
that order; a failure to switch back to the original branch (step 5)
exits 1 after attempting only the local branch deletion. -/
theorem put_failure_cleanup
    (env : PutEnv) (url : Option String) (os : String) (r0 : Repo) (rem0 : Remote)
    (hdirty : gitHasChanges r0)
    (hval : validate_branch_name (get_sync_branch_name url os) = true)
    (hfail : gitSwitchCreate (get_sync_branch_name url os) (gitCommit r0) = none
             ∨ (retryLoop env.pushCodes).1 ≠ 0) :
    (put_sync_main env url os r0 rem0).exit = 1
    ∧ [GAct.switchTo r0.current, GAct.softReset,
       GAct.deleteLocal (get_sync_branch_name url os)]
        <:+ (put_sync_main env url os r0 rem0).trace := by
  cases hcr : gitSwitchCreate (get_sync_branch_name url os) (gitCommit r0) with
  | none =>
    have : put_sync_main env url os r0 rem0
        = { exit := 1,
            repo := (cleanup_on_failure env r0.current (get_sync_branch_name url os)
              (gitCommit r0)).1,
            remote := if (retryLoop env.delRemoteCodes).1 = 0
                      then removeBranch (get_sync_branch_name url os) rem0 else rem0,
            trace := [GAct.addAll, GAct.commit,
                      GAct.deleteRemote (get_sync_branch_name url os)]
                     ++ [GAct.createSwitch (get_sync_branch_name url os)]
                     ++ (cleanup_on_failure env r0.current (get_sync_branch_name url os)
                          (gitCommit r0)).2 } := by
      simp [put_sync_main, hdirty, hval, hcr]
    rw [this]
    exact ⟨rfl, ⟨[GAct.addAll, GAct.commit, GAct.deleteRemote (get_sync_branch_name url os),
      GAct.createSwitch (get_sync_branch_name url os)], by simp [cleanup_on_failure]⟩⟩
  | some r3 =>
    have hp : (retryLoop env.pushCodes).1 ≠ 0 := by
      rcases hfail with h | h
      · rw [hcr] at h
        exact absurd h (by simp)
      · exact h
    have : put_sync_main env url os r0 rem0
        = { exit := 1,
            repo := (cleanup_on_failure env r0.current (get_sync_branch_name url os) r3).1,
            remote := if (retryLoop env.delRemoteCodes).1 = 0
                      then removeBranch (get_sync_branch_name url os) rem0 else rem0,
            trace := [GAct.addAll, GAct.commit,
                      GAct.deleteRemote (get_sync_branch_name url os)]
                     ++ [GAct.createSwitch (get_sync_branch_name url os),
                         GAct.push (get_sync_branch_name url os)]
                     ++ (cleanup_on_failure env r0.current (get_sync_branch_name url os)
                          r3).2 } := by
      simp [put_sync_main, hdirty, hval, hcr, hp]
    rw [this]
    exact ⟨rfl, ⟨[GAct.addAll, GAct.commit, GAct.deleteRemote (get_sync_branch_name url os),
      GAct.createSwitch (get_sync_branch_name url os),
      GAct.push (get_sync_branch_name url os)], by simp [cleanup_on_failure]⟩⟩

/-- C2 witness: the amended theorem on a concrete push failure. -/
theorem put_failure_cleanup_witness :
    (put_sync_main ⟨allOk, fun _ => 128, true⟩ none "alice"
        ⟨[("main", [10, 5])], "main", 11, false⟩ []).exit = 1
    ∧ [GAct.switchTo ("main" : String), GAct.softReset, GAct.deleteLocal "sync-of-alice"]
        <:+ (put_sync_main ⟨allOk, fun _ => 128, true⟩ none "alice"
              ⟨[("main", [10, 5])], "main", 11, false⟩ []).trace :=
  put_failure_cleanup ⟨allOk, fun _ => 128, true⟩ none "alice"
    ⟨[("main", [10, 5])], "main", 11, false⟩ [] (by decide) (by decide)
    (Or.inr (by decide))

/-! ### C4 -/

/-- The backup section never issues a remote branch deletion. -/
theorem backup_flow_no_deleteRemote (ts c : String) (r : Repo) (r1 : Repo)
    (bb : Option String) (tr : List GAct)
    (h : backup_flow ts c r = some (r1, bb, tr)) (x : String) :
    GAct.deleteRemote x ∉ tr := by
  cases hprev : get_previous_backup_branch (r.branches.map Prod.fst) with
  | none =>
    simp only [backup_flow, hprev] at h
    cases hsc : gitSwitchCreate ("backup_" ++ ts) r with
    | none => rw [hsc] at h; simp at h
    | some r2 =>
      simp only [hsc] at h
      cases hsw : gitSwitch true c r2 with
      | none => rw [hsw] at h; simp at h
      | some r3 =>
        simp only [hsw] at h
        simp only [Option.some.injEq, Prod.mk.injEq] at h
        obtain ⟨-, -, htr⟩ := h
        rw [← htr]
        simp
  | some p =>
    simp only [backup_flow, hprev] at h
    cases hsc : gitSwitchCreate ("backup_" ++ ts) ((gitDeleteLocal p r).getD r) with
    | none => rw [hsc] at h; simp at h
    | some r2 =>
      simp only [hsc] at h
      cases hsw : gitSwitch true c r2 with
      | none => rw [hsw] at h; simp at h
      | some r3 =>
        simp only [hsw] at h
        simp only [Option.some.injEq, Prod.mk.injEq] at h
        obtain ⟨-, -, htr⟩ := h
        rw [← htr]
        simp

/-- C4: in every successful consume, the remote deletion of the
transport branch is in the trace exactly when the branch used is the
default transport branch; and the exit code never depends on the
return codes of the remote deletion attempts, so a failed remote
deletion leaves the exit code unchanged. -/
theorem remote_delete_iff_default
    (fc dc codes2 : Nat → Int) (ts c s d0 : String) (r0 : Repo) (rem0 : Remote) :
    ((get_sync_after_resolve ⟨fc, dc, ts⟩ c s d0 r0 rem0).exit = 0 →
      (GAct.deleteRemote s ∈ (get_sync_after_resolve ⟨fc, dc, ts⟩ c s d0 r0 rem0).trace
        ↔ s = d0))
    ∧ (get_sync_after_resolve ⟨fc, codes2, ts⟩ c s d0 r0 rem0).exit
        = (get_sync_after_resolve ⟨fc, dc, ts⟩ c s d0 r0 rem0).exit := by
  cases hsplit : (if gitHasChanges r0 then backup_flow ts c r0
                  else some (r0, none, [])) with
  | none =>
    simp only [get_sync_after_resolve, hsplit]
    exact ⟨fun h => absurd h (by norm_num), trivial⟩
  | some trip =>
    obtain ⟨r1, bb, trb⟩ := trip
    have htrb : GAct.deleteRemote s ∉ trb := by
      by_cases hd : gitHasChanges r0
      · rw [if_pos hd] at hsplit
        exact backup_flow_no_deleteRemote ts c r0 r1 bb trb hsplit s
      · rw [if_neg hd] at hsplit
        simp only [Option.some.injEq, Prod.mk.injEq] at hsplit
        obtain ⟨-, -, htr⟩ := hsplit
        rw [← htr]
        simp
    cases hct : gitCheckoutTrack s r1 rem0 with
    | none =>
      simp only [get_sync_after_resolve, hsplit, hct]
      exact ⟨fun h => absurd h (by norm_num), trivial⟩
    | some r2 =>
      cases hsw : gitSwitch true c r2 with
      | none =>
        simp only [get_sync_after_resolve, hsplit, hct, hsw]
        exact ⟨fun h => absurd h (by norm_num), trivial⟩
      | some r3 =>
        cases hmg : gitMerge s r3 with
        | mk mok mr =>
          cases mok with
          | false =>
            simp only [get_sync_after_resolve, hsplit, hct, hsw, hmg]
            simp only [Bool.false_eq_true, not_false_iff, if_true]
            exact ⟨fun h => absurd h (by norm_num), trivial⟩
          | true =>
            cases hrs : gitReset mr with
            | none =>
              simp only [get_sync_after_resolve, hsplit, hct, hsw, hmg, hrs]
              simp only [not_true, if_false]
              exact ⟨fun h => absurd h (by norm_num), trivial⟩
            | some r4 =>
              cases hdef : is_default_branch s d0 with
              | true =>
                have hsd : s = d0 := by simpa [is_default_branch] using hdef
                simp only [get_sync_after_resolve, hsplit, hct, hsw, hmg, hrs, hdef]
                simp only [not_true, if_false, if_true]
                exact ⟨fun _ => ⟨fun _ => hsd, fun _ => by simp [List.mem_append]⟩, trivial⟩
              | false =>
                have hsd : s ≠ d0 := by simpa [is_default_branch] using hdef
                simp only [get_sync_after_resolve, hsplit, hct, hsw, hmg, hrs, hdef]
                simp only [not_true, if_false, Bool.false_eq_true]
                refine ⟨fun _ => ⟨fun hmem => absurd hmem ?_, fun h => absurd h hsd⟩, trivial⟩
                simp [htrb, List.mem_append]

/-- C4 witness: a successful default-branch consume in which the
remote deletion is performed. -/
theorem remote_delete_iff_default_witness :
    GAct.deleteRemote "sync-of-a" ∈ (get_sync_after_resolve ⟨allOk, allOk, "t"⟩ "main"
      "sync-of-a" "sync-of-a" ⟨[("main", [3])], "main", 3, false⟩
      [("sync-of-a", [7, 3])]).trace :=
  ((remote_delete_iff_default allOk allOk allOk "t" "main" "sync-of-a" "sync-of-a"
      ⟨[("main", [3])], "main", 3, false⟩ [("sync-of-a", [7, 3])]).1 (by decide)).mpr rfl

/-! ### C1 -/

/-- C1: round trip.  Machine A, whose working tree differs from its
committed head snapshot base by the diff producing content d, runs the
Publisher to completion successfully; machine B, clean and with the
same committed history on the same remote, then runs the Consumer to
completion successfully using the default transport branch.
Afterwards A's and B's committed branch histories are exactly what
they were before either run, A's working tree still carries d, and B's
working tree now differs from its prior committed state by exactly the
same diff: its content is d over the same base. -/
theorem round_trip
    (bA bB os ts : String) (url : Option String) (base d : Nat) (t : List Nat)
    (rem0 : Remote)
    (hval : validate_branch_name (get_sync_branch_name url os) = true)
    (hA : get_sync_branch_name url os ≠ bA)
    (hB : get_sync_branch_name url os ≠ bB)
    (hd : d ≠ base) :
    (put_sync_main ⟨allOk, allOk, true⟩ url os
        ⟨[(bA, base :: t)], bA, d, false⟩ rem0).exit = 0
    ∧ branchLookup bA (put_sync_main ⟨allOk, allOk, true⟩ url os
        ⟨[(bA, base :: t)], bA, d, false⟩ rem0).repo.branches = some (base :: t)
    ∧ (put_sync_main ⟨allOk, allOk, true⟩ url os
        ⟨[(bA, base :: t)], bA, d, false⟩ rem0).repo.worktree = d
    ∧ (put_sync_main ⟨allOk, allOk, true⟩ url os
        ⟨[(bA, base :: t)], bA, d, false⟩ rem0).repo.current = bA
    ∧ (get_sync_main ⟨allOk, allOk, ts⟩ none url os ⟨[(bB, base :: t)], bB, base, false⟩
        (put_sync_main ⟨allOk, allOk, true⟩ url os
          ⟨[(bA, base :: t)], bA, d, false⟩ rem0).remote).exit = 0
    ∧ branchLookup bB
        (get_sync_main ⟨allOk, allOk, ts⟩ none url os ⟨[(bB, base :: t)], bB, base, false⟩
          (put_sync_main ⟨allOk, allOk, true⟩ url os
            ⟨[(bA, base :: t)], bA, d, false⟩ rem0).remote).repo.branches = some (base :: t)
    ∧ (get_sync_main ⟨allOk, allOk, ts⟩ none url os ⟨[(bB, base :: t)], bB, base, false⟩
        (put_sync_main ⟨allOk, allOk, true⟩ url os
          ⟨[(bA, base :: t)], bA, d, false⟩ rem0).remote).repo.worktree = d
    ∧ (get_sync_main ⟨allOk, allOk, ts⟩ none url os ⟨[(bB, base :: t)], bB, base, false⟩
        (put_sync_main ⟨allOk, allOk, true⟩ url os
          ⟨[(bA, base :: t)], bA, d, false⟩ rem0).remote).repo.current = bB := by
  obtain ⟨s, hs⟩ : ∃ x, get_sync_branch_name url os = x := ⟨_, rfl⟩
  rw [hs] at hval hA hB
  have hAs : bA ≠ s := Ne.symm hA
  have hBs : bB ≠ s := Ne.symm hB
  have hok : retryLoop allOk = (0, [0], []) := rfl
  -- the publisher run on machine A
  have hdirty : gitHasChanges ⟨[(bA, base :: t)], bA, d, false⟩ := by
    simp [gitHasChanges, headContent, branchLookup, Ne.symm hd]
  have hcommit : gitCommit ⟨[(bA, base :: t)], bA, d, false⟩
      = ⟨[(bA, d :: base :: t)], bA, d, false⟩ := by
    simp [gitCommit, branchLookup, setBranch]
  have hcreate : gitSwitchCreate s ⟨[(bA, d :: base :: t)], bA, d, false⟩
      = some ⟨[(bA, d :: base :: t), (s, d :: base :: t)], s, d, false⟩ := by
    simp [gitSwitchCreate, branchLookup, setBranch, hAs]
  have hswitchA : gitSwitch true bA
      ⟨[(bA, d :: base :: t), (s, d :: base :: t)], s, d, false⟩
      = some ⟨[(bA, d :: base :: t), (s, d :: base :: t)], bA, d, false⟩ := by
    simp [gitSwitch, branchLookup, headContent, hAs]
  have hresetA : gitReset ⟨[(bA, d :: base :: t), (s, d :: base :: t)], bA, d, false⟩
      = some ⟨[(bA, base :: t), (s, d :: base :: t)], bA, d, false⟩ := by
    simp [gitReset, branchLookup, setBranch, hAs]
  have hdelA : gitDeleteLocal s ⟨[(bA, base :: t), (s, d :: base :: t)], bA, d, false⟩
      = some ⟨[(bA, base :: t)], bA, d, false⟩ := by
    simp [gitDeleteLocal, branchLookup, removeBranch, hA, hAs]
  have hput : put_sync_main ⟨allOk, allOk, true⟩ url os
      ⟨[(bA, base :: t)], bA, d, false⟩ rem0
      = ⟨0, ⟨[(bA, base :: t)], bA, d, false⟩,
          setBranch s (d :: base :: t) (removeBranch s rem0),
          [GAct.addAll, GAct.commit, GAct.deleteRemote s, GAct.createSwitch s,
           GAct.push s, GAct.switchTo bA, GAct.softReset, GAct.deleteLocal s]⟩ := by
    simp only [put_sync_main, hs, hdirty, hval, hok, hcommit, hcreate, hswitchA,
      hresetA, hdelA, branchLookup, hAs, not_true, not_false_iff, if_true, if_false,
      Option.getD_some]
    simp [hdirty, hval, branchLookup_setBranch_self]
  -- the consumer run on machine B
  have hcleanB : ¬ gitHasChanges ⟨[(bB, base :: t)], bB, base, false⟩ := by
    simp [gitHasChanges, headContent, branchLookup]
  have hctB : gitCheckoutTrack s ⟨[(bB, base :: t)], bB, base, false⟩
      (setBranch s (d :: base :: t) (removeBranch s rem0))
      = some ⟨[(bB, base :: t), (s, d :: base :: t)], s, d, false⟩ := by
    simp [gitCheckoutTrack, branchLookup, setBranch, headContent, hBs,
      branchLookup_setBranch_self]
  have hswB : gitSwitch true bB ⟨[(bB, base :: t), (s, d :: base :: t)], s, d, false⟩
      = some ⟨[(bB, base :: t), (s, d :: base :: t)], bB, base, false⟩ := by
    simp [gitSwitch, branchLookup, headContent, hBs]
  have hmgB : gitMerge s ⟨[(bB, base :: t), (s, d :: base :: t)], bB, base, false⟩
      = (true, ⟨[(bB, d :: base :: t), (s, d :: base :: t)], bB, d, false⟩) := by
    simp [gitMerge, branchLookup, setBranch, hBs, List.cons_ne_self, List.suffix_cons]
  have hrsB : gitReset ⟨[(bB, d :: base :: t), (s, d :: base :: t)], bB, d, false⟩
      = some ⟨[(bB, base :: t), (s, d :: base :: t)], bB, d, false⟩ := by
    simp [gitReset, branchLookup, setBranch, hBs]
  have hdelB : gitDeleteLocal s ⟨[(bB, base :: t), (s, d :: base :: t)], bB, d, false⟩
      = some ⟨[(bB, base :: t)], bB, d, false⟩ := by
    simp [gitDeleteLocal, branchLookup, removeBranch, hB, hBs]
  have hget : get_sync_main ⟨allOk, allOk, ts⟩ none url os
      ⟨[(bB, base :: t)], bB, base, false⟩
      (setBranch s (d :: base :: t) (removeBranch s rem0))
      = ⟨0, ⟨[(bB, base :: t)], bB, d, false⟩,
          removeBranch s (setBranch s (d :: base :: t) (removeBranch s rem0)),
          [GAct.fetch, GAct.checkoutTrack s, GAct.switchTo bB, GAct.merge s,
           GAct.softReset, GAct.deleteLocal s, GAct.deleteRemote s], none⟩ := by
    simp only [get_sync_main, get_sync_after_resolve, hs, hval, hok, hcleanB, hctB,
      hswB, hmgB, hrsB, hdelB, branchLookup_setBranch_self, is_default_branch,
      not_true, not_false_iff, if_true, if_false, Option.getD_some, Option.isSome_some]
    simp [hval, hcleanB]
  rw [hput]
  simp [hget, branchLookup]

/-- C1 witness: the round trip at a concrete repository pair. -/
theorem round_trip_witness :
    (put_sync_main ⟨allOk, allOk, true⟩ (some "git@github.com:alice/repo.git") "al"
        ⟨[("main", [0])], "main", 1, false⟩ []).exit = 0
    ∧ branchLookup "main" (put_sync_main ⟨allOk, allOk, true⟩
        (some "git@github.com:alice/repo.git") "al"
        ⟨[("main", [0])], "main", 1, false⟩ []).repo.branches = some [0]
    ∧ (put_sync_main ⟨allOk, allOk, true⟩ (some "git@github.com:alice/repo.git") "al"
        ⟨[("main", [0])], "main", 1, false⟩ []).repo.worktree = 1
    ∧ (put_sync_main ⟨allOk, allOk, true⟩ (some "git@github.com:alice/repo.git") "al"
        ⟨[("main", [0])], "main", 1, false⟩ []).repo.current = "main"
    ∧ (get_sync_main ⟨allOk, allOk, "x"⟩ none (some "git@github.com:alice/repo.git") "al"
        ⟨[("work", [0])], "work", 0, false⟩
        (put_sync_main ⟨allOk, allOk, true⟩ (some "git@github.com:alice/repo.git") "al"
          ⟨[("main", [0])], "main", 1, false⟩ []).remote).exit = 0
    ∧ branchLookup "work"
        (get_sync_main ⟨allOk, allOk, "x"⟩ none (some "git@github.com:alice/repo.git") "al"
          ⟨[("work", [0])], "work", 0, false⟩
          (put_sync_main ⟨allOk, allOk, true⟩ (some "git@github.com:alice/repo.git") "al"
            ⟨[("main", [0])], "main", 1, false⟩ []).remote).repo.branches = some [0]
    ∧ (get_sync_main ⟨allOk, allOk, "x"⟩ none (some "git@github.com:alice/repo.git") "al"
        ⟨[("work", [0])], "work", 0, false⟩
        (put_sync_main ⟨allOk, allOk, true⟩ (some "git@github.com:alice/repo.git") "al"
          ⟨[("main", [0])], "main", 1, false⟩ []).remote).repo.worktree = 1
    ∧ (get_sync_main ⟨allOk, allOk, "x"⟩ none (some "git@github.com:alice/repo.git") "al"
        ⟨[("work", [0])], "work", 0, false⟩
        (put_sync_main ⟨allOk, allOk, true⟩ (some "git@github.com:alice/repo.git") "al"
          ⟨[("main", [0])], "main", 1, false⟩ []).remote).repo.current = "work" :=
  round_trip "main" "work" "al" "x" (some "git@github.com:alice/repo.git") 0 1 [] []
    (by decide) (by decide) (by decide) (by decide)

end Trapla
